import Mathlib

/-!
Shallow embedding of the DuraGraph workflow-graph executor
(`src/graph/graph.go`): the `Graph` data model, the builder API
(`New`, `AddNode`, `AddEdge`, `SetEntrypoint`) and the execution loop
(`Graph.Run`), together with theorems settling the specification's claims.

Modelling choices:
- Go maps (`nodes`, `edges`) become association lists with
  replace-on-insert semantics (`mapInsert`); lookup is `List.lookup`.
- A node is a record of its `Execute` function and an optional `Route`
  function (`none` when the node does not implement the `Router`
  interface, mirroring the dynamic type assertion `node.(Router[S])`).
- `context.Context` becomes `Ctx`: a function telling, for the k-th
  cancellation check of the loop, whether the context is done, plus the
  value `ctx.Err()` returns.
- The `for` loop of `Run` has no termination guarantee in Go, so it is
  embedded fuel-indexed (`runLoop`): `none` means the loop did not
  finish within the given fuel; `some` results are stable under more
  fuel, so the Go result is the value obtained for any sufficient fuel.
- `runLoop` also returns the trace of node operations invoked
  (`Ev.exec n` for an `Execute` call on node `n`, `Ev.route n` for a
  `Route` call), in order, so that claims about which nodes run can be
  stated.
-/

namespace Duragraph

/-- An event of the execution loop: an `Execute` or a `Route` invocation
on the named node. -/
inductive Ev where
  | exec (name : String)
  | route (name : String)
  deriving DecidableEq, Repr

/-- A graph node: the `Execute` method, and the `Route` method when the
node also implements the `Router` interface (`none` otherwise).
`Execute` returns the updated state and an optional error, `Route`
returns the next node name and an optional error, as in the source. -/
structure NodeImpl (S ε : Type) where
  execute : S → S × Option ε
  route : Option (S → String × Option ε)

/-- The context passed to `Run`: `doneAt k` tells whether the
context's done channel is closed at the k-th top-of-loop check, and
`ctxErr` is the error `ctx.Err()` reports once done. -/
structure Ctx (ε : Type) where
  doneAt : Nat → Bool
  ctxErr : ε

/-- The `Graph[S]` struct: id, node registry, default-edge map and
entrypoint. -/
structure Graph (S ε : Type) where
  id : String
  nodes : List (String × NodeImpl S ε)
  edges : List (String × List String)
  entrypoint : String

/-- Go map assignment `m[k] = v` on the association-list model:
replaces the binding of `k` in place if present, else appends it. -/
def mapInsert {α : Type} (k : String) (v : α) : List (String × α) → List (String × α)
  | [] => [(k, v)]
  | (k', v') :: rest => if k' = k then (k, v) :: rest else (k', v') :: mapInsert k v rest

/-- `New(id)`: a fresh graph with empty registries and the zero-value
entrypoint `""`. -/
def New {S ε : Type} (id : String) : Graph S ε :=
  { id := id, nodes := [], edges := [], entrypoint := "" }

/-- `Graph.ID()`. -/
def Graph.ID {S ε : Type} (g : Graph S ε) : String :=
  g.id

/-- `Graph.AddNode(name, node)`: `g.nodes[name] = node`. -/
def Graph.AddNode {S ε : Type} (g : Graph S ε) (name : String) (node : NodeImpl S ε) :
    Graph S ε :=
  { g with nodes := mapInsert name node g.nodes }

/-- `Graph.AddEdge(from, to)`: `g.edges[from] = append(g.edges[from], to)`
(a missing key reads as the empty slice). -/
def Graph.AddEdge {S ε : Type} (g : Graph S ε) (src dst : String) : Graph S ε :=
  { g with edges := mapInsert src ((List.lookup src g.edges).getD [] ++ [dst]) g.edges }

/-- `Graph.SetEntrypoint(name)`. -/
def Graph.SetEntrypoint {S ε : Type} (g : Graph S ε) (name : String) : Graph S ε :=
  { g with entrypoint := name }

/-- The body of `Run`'s `for current != ""` loop, fuel-indexed.
`runLoop g ctx fuel i current state` runs at most `fuel` iterations,
`i` counting how many top-of-loop cancellation checks happened before.
`none` means the fuel ran out with the loop still going; otherwise the
result is the trace of invoked node operations, the final state, and
the returned error (`none` for Go's `nil`). Each branch mirrors the
source: cancellation check first, then registry lookup (absent name
breaks the loop without error), then `Execute` (an error returns the
state `Execute` produced together with that error), then the router
type assertion (`Route` decides the successor, an error aborting), else
the first default edge or `""`. -/
def runLoop {S ε : Type} (g : Graph S ε) (ctx : Ctx ε) :
    Nat → Nat → String → S → Option (List Ev × S × Option ε)
  | 0, _, current, state =>
    if current = "" then some ([], state, none) else none
  | fuel + 1, i, current, state =>
    if current = "" then some ([], state, none)
    else if ctx.doneAt i then some ([], state, some ctx.ctxErr)
    else
      match List.lookup current g.nodes with
      | none => some ([], state, none)
      | some node =>
        match node.execute state with
        | (state', some e) => some ([Ev.exec current], state', some e)
        | (state', none) =>
          match node.route with
          | some rt =>
            match rt state' with
            | (_, some e) => some ([Ev.exec current, Ev.route current], state', some e)
            | (next, none) =>
              (runLoop g ctx fuel (i + 1) next state').map
                (fun r => (Ev.exec current :: Ev.route current :: r.1, r.2))
          | none =>
            (runLoop g ctx fuel (i + 1) (((List.lookup current g.edges).getD []).headD "") state').map
              (fun r => (Ev.exec current :: r.1, r.2))

/-- `Graph.Run(ctx, state)`: start the loop at the entrypoint. -/
def Graph.Run {S ε : Type} (g : Graph S ε) (ctx : Ctx ε) (state : S) (fuel : Nat) :
    Option (List Ev × S × Option ε) :=
  runLoop g ctx fuel 0 g.entrypoint state

/-- A context that is never done. -/
def ctxLive : Ctx String :=
  { doneAt := fun _ => false, ctxErr := "context canceled" }

/-- A context that is already done before the run starts. -/
def ctxDone : Ctx String :=
  { doneAt := fun _ => true, ctxErr := "context canceled" }

/-- A non-router node appending a fixed string to a string state,
never failing. -/
def appendNode (suffix : String) : NodeImpl String String :=
  { execute := fun s => (s ++ suffix, none), route := none }

/-- The spec's concrete scenario: nodes `A` (appends "a") and
`B` (appends "b"), edge `A -> B`, entrypoint `A`. -/
def gAB : Graph String String :=
  ((((New "ab").AddNode "A" (appendNode "a")).AddNode "B" (appendNode "b")).AddEdge
      "A" "B").SetEntrypoint "A"

/-- The graph contains the given list of (name, state transformer)
pairs as a linear chain: each name is registered (non-router, never
failing, its `Execute` applying the transformer), each non-last name's
first default edge is the next name, and the last name has no default
edges. -/
def isLinearChain {S ε : Type} (g : Graph S ε) : List (String × (S → S)) → Prop
  | [] => True
  | (n, f) :: rest =>
    n ≠ "" ∧
    List.lookup n g.nodes = some { execute := fun s => (f s, none), route := none } ∧
    (match rest with
     | [] => (List.lookup n g.edges).getD [] = []
     | (n', _) :: _ => ((List.lookup n g.edges).getD []).headD "" = n') ∧
    isLinearChain g rest

/-- Apply the transformers of a chain in order. -/
def applyChain {S : Type} : List (String × (S → S)) → S → S
  | [], s => s
  | (_, f) :: rest, s => applyChain rest (f s)

def runLoopMut {S ε : Type} (ctx : Ctx ε) :
    Nat → Graph S ε → Nat → String → S → Graph S ε × Option (List Ev × S × Option ε)
  | 0, g, _, current, state =>
    (g, if current = "" then some ([], state, none) else none)
  | fuel + 1, g, i, current, state =>
    if current = "" then (g, some ([], state, none))
    else if ctx.doneAt i then (g, some ([], state, some ctx.ctxErr))
    else
      match List.lookup current g.nodes with
      | none => (g, some ([], state, none))
      | some node =>
        match node.execute state with
        | (state', some e) => (g, some ([Ev.exec current], state', some e))
        | (state', none) =>
          match node.route with
          | some rt =>
            match rt state' with
            | (_, some e) => (g, some ([Ev.exec current, Ev.route current], state', some e))
            | (next, none) =>
              let r := runLoopMut ctx fuel g (i + 1) next state'
              (r.1, r.2.map (fun p => (Ev.exec current :: Ev.route current :: p.1, p.2)))
          | none =>
            let r := runLoopMut ctx fuel g (i + 1)
              (((List.lookup current g.edges).getD []).headD "") state'
            (r.1, r.2.map (fun p => (Ev.exec current :: p.1, p.2)))

/-- `Run` with the receiver threaded through. -/
def Graph.RunMut {S ε : Type} (g : Graph S ε) (ctx : Ctx ε) (state : S) (fuel : Nat) :
    Graph S ε × Option (List Ev × S × Option ε) :=
  runLoopMut ctx fuel g 0 g.entrypoint state

/-- A node whose `Execute` (and optional `Route`) is a relation from
input state to outcome, admitting nondeterministic behavior. -/
structure NodeRel (S ε : Type) where
  execR : S → S × Option ε → Prop
  routeR : Option (S → String × Option ε → Prop)

/-- A graph over relational nodes. -/
structure GraphRel (S ε : Type) where
  id : String
  nodes : List (String × NodeRel S ε)
  edges : List (String × List String)
  entrypoint : String

/-- Big-step relation of the `Run` loop over relational nodes:
`RunRel g ctx i c s (s', e)` holds when, starting the loop at node name
`c` with state `s` and `i` cancellation checks already behind, the loop
can terminate with final state `s'` and returned error `e`. Branches
mirror the source loop exactly. -/
inductive RunRel {S ε : Type} (g : GraphRel S ε) (ctx : Ctx ε) :
    Nat → String → S → S × Option ε → Prop where
  | halt (i : Nat) (s : S) : RunRel g ctx i "" s (s, none)
  | cancelled (i : Nat) (c : String) (s : S) :
      c ≠ "" → ctx.doneAt i = true → RunRel g ctx i c s (s, some ctx.ctxErr)
  | missing (i : Nat) (c : String) (s : S) :
      c ≠ "" → ctx.doneAt i = false → List.lookup c g.nodes = none →
      RunRel g ctx i c s (s, none)
  | execErr (i : Nat) (c : String) (s s' : S) (e : ε) (node : NodeRel S ε) :
      c ≠ "" → ctx.doneAt i = false → List.lookup c g.nodes = some node →
      node.execR s (s', some e) → RunRel g ctx i c s (s', some e)
  | routeErr (i : Nat) (c nx : String) (s s' : S) (e : ε) (node : NodeRel S ε)
      (rt : S → String × Option ε → Prop) :
      c ≠ "" → ctx.doneAt i = false → List.lookup c g.nodes = some node →
      node.execR s (s', none) → node.routeR = some rt → rt s' (nx, some e) →
      RunRel g ctx i c s (s', some e)
  | routeStep (i : Nat) (c nx : String) (s s' : S) (node : NodeRel S ε)
      (rt : S → String × Option ε → Prop) (out : S × Option ε) :
      c ≠ "" → ctx.doneAt i = false → List.lookup c g.nodes = some node →
      node.execR s (s', none) → node.routeR = some rt → rt s' (nx, none) →
      RunRel g ctx (i + 1) nx s' out → RunRel g ctx i c s out
  | edgeStep (i : Nat) (c : String) (s s' : S) (node : NodeRel S ε) (out : S × Option ε) :
      c ≠ "" → ctx.doneAt i = false → List.lookup c g.nodes = some node →
      node.execR s (s', none) → node.routeR = none →
      RunRel g ctx (i + 1) (((List.lookup c g.edges).getD []).headD "") s' out →
      RunRel g ctx i c s out

/-- A relational node is deterministic: its `Execute` relation, and its
`Route` relation when present, are functional. -/
def NodeRel.Functional {S ε : Type} (n : NodeRel S ε) : Prop :=
  (∀ s o1 o2, n.execR s o1 → n.execR s o2 → o1 = o2) ∧
  (∀ rt, n.routeR = some rt → ∀ s o1 o2, rt s o1 → rt s o2 → o1 = o2)

/-- The relational node induced by a functional one: its relations are
the graphs of the `Execute` and `Route` functions. -/
def NodeImpl.toRel {S ε : Type} (n : NodeImpl S ε) : NodeRel S ε :=
  { execR := fun s o => o = n.execute s,
    routeR := n.route.map (fun rt => fun s o => o = rt s) }

/-- The relational graph induced by a functional one. -/
def Graph.toRel {S ε : Type} (g : Graph S ε) : GraphRel S ε :=
  { id := g.id,
    nodes := g.nodes.map (fun p => (p.1, p.2.toRel)),
    edges := g.edges,
    entrypoint := g.entrypoint }

/-- A router node: `Execute` is the identity, `Route` always returns
the fixed target. -/
def routerNode (target : String) : NodeImpl String String :=
  { execute := fun s => (s, none), route := some (fun _ => (target, none)) }

/-- A single router `R` routing to `""` despite a default edge
`R -> X`. -/
def gR : Graph String String :=
  ((((New "router").AddNode "R" (routerNode "")).AddNode "X" (appendNode "x")).AddEdge
      "R" "X").SetEntrypoint "R"

/-- A node whose `Execute` always fails. -/
def failNode : NodeImpl String String :=
  { execute := fun s => (s, some "boom"), route := none }

/-- A graph whose entrypoint node fails. -/
def gFail : Graph String String :=
  (((New "fail").AddNode "F" failNode).AddEdge "F" "G").SetEntrypoint "F"

/-- A graph whose entrypoint names no registered node. -/
def gDangling : Graph String String :=
  ((New "dangling").AddNode "A" (appendNode "a")).SetEntrypoint "Z"

/-- A router that always routes back to itself. -/
def loopNode : NodeImpl String String :=
  { execute := fun s => (s, none), route := some (fun _ => ("R", none)) }

/-- A graph with a single self-routing router. -/
def gLoop : Graph String String :=
  ((New "loop").AddNode "R" loopNode).SetEntrypoint "R"

/-- Two non-router nodes whose default edges form a cycle. -/
def gCycle : Graph String String :=
  (((((New "cycle").AddNode "A" (appendNode "a")).AddNode "B" (appendNode "b")).AddEdge
        "A" "B").AddEdge "B" "A").SetEntrypoint "A"

/-! ### Theorems -/

theorem runLoop_halt {S ε : Type} (g : Graph S ε) (ctx : Ctx ε) (fuel i : Nat) (s : S) :
    runLoop g ctx fuel i "" s = some ([], s, none) := by
  cases fuel <;> simp [runLoop]

theorem runLoop_cancelled {S ε : Type} (g : Graph S ε) (ctx : Ctx ε) (fuel i : Nat)
    (c : String) (s : S) (hc : c ≠ "") (hdone : ctx.doneAt i = true) :
    runLoop g ctx (fuel + 1) i c s = some ([], s, some ctx.ctxErr) := by
  simp [runLoop, hc, hdone]

theorem runLoop_missing {S ε : Type} (g : Graph S ε) (ctx : Ctx ε) (fuel i : Nat)
    (c : String) (s : S) (hc : c ≠ "") (hdone : ctx.doneAt i = false)
    (hnode : List.lookup c g.nodes = none) :
    runLoop g ctx (fuel + 1) i c s = some ([], s, none) := by
  simp [runLoop, hc, hdone, hnode]

theorem runLoop_execErr {S ε : Type} (g : Graph S ε) (ctx : Ctx ε) (fuel i : Nat)
    (c : String) (s s' : S) (e : ε) (node : NodeImpl S ε)
    (hc : c ≠ "") (hdone : ctx.doneAt i = false)
    (hnode : List.lookup c g.nodes = some node)
    (hexec : node.execute s = (s', some e)) :
    runLoop g ctx (fuel + 1) i c s = some ([Ev.exec c], s', some e) := by
  simp [runLoop, hc, hdone, hnode, hexec]

theorem runLoop_routeErr {S ε : Type} (g : Graph S ε) (ctx : Ctx ε) (fuel i : Nat)
    (c nx : String) (s s' : S) (e : ε) (node : NodeImpl S ε) (rt : S → String × Option ε)
    (hc : c ≠ "") (hdone : ctx.doneAt i = false)
    (hnode : List.lookup c g.nodes = some node)
    (hexec : node.execute s = (s', none))
    (hroute : node.route = some rt)
    (hrt : rt s' = (nx, some e)) :
    runLoop g ctx (fuel + 1) i c s = some ([Ev.exec c, Ev.route c], s', some e) := by
  simp [runLoop, hc, hdone, hnode, hexec, hroute, hrt]

theorem runLoop_routeStep {S ε : Type} (g : Graph S ε) (ctx : Ctx ε) (fuel i : Nat)
    (c nx : String) (s s' : S) (node : NodeImpl S ε) (rt : S → String × Option ε)
    (hc : c ≠ "") (hdone : ctx.doneAt i = false)
    (hnode : List.lookup c g.nodes = some node)
    (hexec : node.execute s = (s', none))
    (hroute : node.route = some rt)
    (hrt : rt s' = (nx, none)) :
    runLoop g ctx (fuel + 1) i c s =
      (runLoop g ctx fuel (i + 1) nx s').map
        (fun r => (Ev.exec c :: Ev.route c :: r.1, r.2)) := by
  simp [runLoop, hc, hdone, hnode, hexec, hroute, hrt]

theorem runLoop_edgeStep {S ε : Type} (g : Graph S ε) (ctx : Ctx ε) (fuel i : Nat)
    (c : String) (s s' : S) (node : NodeImpl S ε)
    (hc : c ≠ "") (hdone : ctx.doneAt i = false)
    (hnode : List.lookup c g.nodes = some node)
    (hexec : node.execute s = (s', none))
    (hroute : node.route = none) :
    runLoop g ctx (fuel + 1) i c s =
      (runLoop g ctx fuel (i + 1) (((List.lookup c g.edges).getD []).headD "") s').map
        (fun r => (Ev.exec c :: r.1, r.2)) := by
  simp [runLoop, hc, hdone, hnode, hexec, hroute]

theorem runLoop_chain {S ε : Type} (g : Graph S ε) (ctx : Ctx ε)
    (hctx : ∀ k, ctx.doneAt k = false) :
    ∀ (chain : List (String × (S → S))) (n : String) (f : S → S),
      isLinearChain g ((n, f) :: chain) →
      ∀ (i : Nat) (s : S),
        runLoop g ctx (chain.length + 1) i n s =
          some (((n, f) :: chain).map (fun p => Ev.exec p.1), applyChain ((n, f) :: chain) s, none)
  | [], n, f, hchain, i, s => by
    obtain ⟨hn, hnode, hedges, -⟩ := hchain
    simp only [List.length_nil]
    rw [runLoop_edgeStep g ctx 0 i n s (f s) _ hn (hctx i) hnode rfl rfl]
    simp only at hedges
    simp [hedges, runLoop_halt, applyChain]
  | (n', f') :: rest, n, f, hchain, i, s => by
    obtain ⟨hn, hnode, hedges, hrest⟩ := hchain
    rw [show ((n', f') :: rest).length + 1 = rest.length + 1 + 1 from rfl,
      runLoop_edgeStep g ctx (rest.length + 1) i n s (f s) _ hn (hctx i) hnode rfl rfl]
    have hstep := runLoop_chain g ctx hctx rest n' f' hrest (i + 1) (f s)
    simp only [hedges, hstep, Option.map_some]
    simp [applyChain]

theorem lookup_mapInsert_self {α : Type} (k : String) (v : α) :
    ∀ l : List (String × α), List.lookup k (mapInsert k v l) = some v
  | [] => by simp [mapInsert, List.lookup]
  | (k', v') :: rest => by
    by_cases h : k' = k
    · simp [mapInsert, h, List.lookup]
    · simp only [mapInsert, if_neg h, List.lookup]
      have : (k == k') = false := by
        simp [Ne.symm h]
      simp [this, lookup_mapInsert_self k v rest]

theorem mapInsert_mapInsert_same {α : Type} (k : String) (a b : α) :
    ∀ l : List (String × α), mapInsert k b (mapInsert k a l) = mapInsert k b l
  | [] => by simp [mapInsert]
  | (k', v') :: rest => by
    by_cases h : k' = k
    · simp [mapInsert, h]
    · simp [mapInsert, h, mapInsert_mapInsert_same k a b rest]

theorem keys_mapInsert_indep {α : Type} (k : String) (a b : α) :
    ∀ l : List (String × α),
      (mapInsert k a l).map Prod.fst = (mapInsert k b l).map Prod.fst
  | [] => by simp [mapInsert]
  | (k', v') :: rest => by
    by_cases h : k' = k
    · simp [mapInsert, h]
    · simp [mapInsert, h, keys_mapInsert_indep k a b rest]

theorem runLoopMut_eq {S ε : Type} (ctx : Ctx ε) :
    ∀ (fuel : Nat) (g : Graph S ε) (i : Nat) (c : String) (s : S),
      runLoopMut ctx fuel g i c s = (g, runLoop g ctx fuel i c s)
  | 0, g, i, c, s => by
    simp [runLoopMut, runLoop]
  | fuel + 1, g, i, c, s => by
    simp only [runLoopMut, runLoop]
    by_cases hc : c = ""
    · simp [hc]
    · simp only [if_neg hc]
      by_cases hd : ctx.doneAt i
      · simp [hd]
      · simp only [hd, Bool.false_eq_true, if_false]
        cases hnode : List.lookup c g.nodes with
        | none => rfl
        | some node =>
          cases hexec : node.execute s with
          | mk s' err =>
            cases err with
            | some e => simp only [hexec]
            | none =>
              cases hroute : node.route with
              | none =>
                simp only [hexec, hroute, runLoopMut_eq ctx fuel g (i + 1)
                  (((List.lookup c g.edges).getD []).headD "") s']
              | some rt =>
                cases hrt : rt s' with
                | mk nx rerr =>
                  cases rerr with
                  | some e => simp only [hexec, hroute, hrt]
                  | none =>
                    simp only [hexec, hroute, hrt,
                      runLoopMut_eq ctx fuel g (i + 1) nx s']

theorem lookup_map_snd {α β : Type} (f : α → β) (k : String) :
    ∀ l : List (String × α),
      List.lookup k (l.map (fun p => (p.1, f p.2))) = (List.lookup k l).map f
  | [] => by simp
  | (k', v') :: rest => by
    by_cases h : k == k'
    · simp [List.lookup, h]
    · simp [List.lookup, h, lookup_map_snd f k rest]

/-- Adequacy: a terminating result of the fuel-indexed loop is a
derivation of the big-step relation over the induced relational graph. -/
theorem runLoop_toRel {S ε : Type} (g : Graph S ε) (ctx : Ctx ε) :
    ∀ (fuel i : Nat) (c : String) (s : S) (tr : List Ev) (out : S × Option ε),
      runLoop g ctx fuel i c s = some (tr, out) →
      RunRel g.toRel ctx i c s out
  | 0, i, c, s, tr, out => by
    intro h
    by_cases hc : c = ""
    · subst hc
      rw [runLoop_halt] at h
      obtain ⟨rfl, rfl⟩ : tr = [] ∧ out = (s, none) := by
        simpa using h.symm
      exact RunRel.halt i s
    · simp [runLoop, hc] at h
  | fuel + 1, i, c, s, tr, out => by
    intro h
    by_cases hc : c = ""
    · subst hc
      rw [runLoop_halt] at h
      obtain ⟨rfl, rfl⟩ : tr = [] ∧ out = (s, none) := by
        simpa using h.symm
      exact RunRel.halt i s
    · by_cases hd : ctx.doneAt i
      · rw [runLoop_cancelled g ctx fuel i c s hc hd] at h
        obtain ⟨rfl, rfl⟩ : tr = [] ∧ out = (s, some ctx.ctxErr) := by
          simpa using h.symm
        exact RunRel.cancelled i c s hc hd
      · have hd' : ctx.doneAt i = false := by
          simpa using hd
        have hlookR : List.lookup c g.toRel.nodes =
            (List.lookup c g.nodes).map NodeImpl.toRel := by
          simpa [Graph.toRel] using
            lookup_map_snd (NodeImpl.toRel (S := S) (ε := ε)) c g.nodes
        cases hnode : List.lookup c g.nodes with
        | none =>
          rw [runLoop_missing g ctx fuel i c s hc hd' hnode] at h
          obtain ⟨rfl, rfl⟩ : tr = [] ∧ out = (s, none) := by
            simpa using h.symm
          exact RunRel.missing i c s hc hd' (by rw [hlookR, hnode]; rfl)
        | some node =>
          have hlook2 : List.lookup c g.toRel.nodes = some node.toRel := by
            rw [hlookR, hnode]; rfl
          cases hexec : node.execute s with
          | mk s' err =>
            cases err with
            | some e =>
              rw [runLoop_execErr g ctx fuel i c s s' e node hc hd' hnode hexec] at h
              obtain ⟨rfl, rfl⟩ : tr = [Ev.exec c] ∧ out = (s', some e) := by
                simpa using h.symm
              exact RunRel.execErr i c s s' e node.toRel hc hd' hlook2
                (by simp [NodeImpl.toRel, hexec])
            | none =>
              cases hroute : node.route with
              | none =>
                rw [runLoop_edgeStep g ctx fuel i c s s' node hc hd' hnode hexec hroute] at h
                cases hrec : runLoop g ctx fuel (i + 1)
                    (((List.lookup c g.edges).getD []).headD "") s' with
                | none => rw [hrec] at h; simp at h
                | some r =>
                  rw [hrec] at h
                  obtain ⟨tr', out'⟩ := r
                  obtain ⟨rfl, rfl⟩ : tr = Ev.exec c :: tr' ∧ out = out' := by
                    simpa using h.symm
                  refine RunRel.edgeStep i c s s' node.toRel out hc hd' hlook2
                    (by simp [NodeImpl.toRel, hexec])
                    (by simp [NodeImpl.toRel, hroute]) ?_
                  have hrel := runLoop_toRel g ctx fuel (i + 1)
                    (((List.lookup c g.edges).getD []).headD "") s' tr' out hrec
                  simpa [Graph.toRel] using hrel
              | some rt =>
                cases hrt : rt s' with
                | mk nx rerr =>
                  cases rerr with
                  | some e =>
                    rw [runLoop_routeErr g ctx fuel i c nx s s' e node rt hc hd' hnode
                      hexec hroute hrt] at h
                    obtain ⟨rfl, rfl⟩ :
                        tr = [Ev.exec c, Ev.route c] ∧ out = (s', some e) := by
                      simpa using h.symm
                    exact RunRel.routeErr i c nx s s' e node.toRel
                      (fun s o => o = rt s) hc hd' hlook2
                      (by simp [NodeImpl.toRel, hexec])
                      (by simp [NodeImpl.toRel, hroute]) (by simp [hrt])
                  | none =>
                    rw [runLoop_routeStep g ctx fuel i c nx s s' node rt hc hd' hnode
                      hexec hroute hrt] at h
                    cases hrec : runLoop g ctx fuel (i + 1) nx s' with
                    | none => rw [hrec] at h; simp at h
                    | some r =>
                      rw [hrec] at h
                      obtain ⟨tr', out'⟩ := r
                      obtain ⟨rfl, rfl⟩ :
                          tr = Ev.exec c :: Ev.route c :: tr' ∧ out = out' := by
                        simpa using h.symm
                      exact RunRel.routeStep i c nx s s' node.toRel
                        (fun s o => o = rt s) out hc hd' hlook2
                        (by simp [NodeImpl.toRel, hexec])
                        (by simp [NodeImpl.toRel, hroute]) (by simp [hrt])
                        (runLoop_toRel g ctx fuel (i + 1) nx s' tr' out hrec)

theorem RunRel_det {S ε : Type} (g : GraphRel S ε) (ctx : Ctx ε)
    (hfun : ∀ name node, List.lookup name g.nodes = some node → node.Functional)
    (i : Nat) (c : String) (s : S) (o1 o2 : S × Option ε)
    (h1 : RunRel g ctx i c s o1) (h2 : RunRel g ctx i c s o2) : o1 = o2 := by
  induction h1 generalizing o2 with
  | halt i s =>
    cases h2 with
    | halt => rfl
    | cancelled _ _ _ hc2 hd2 => exact absurd rfl hc2
    | missing _ _ _ hc2 hd2 hl2 => exact absurd rfl hc2
    | execErr _ _ _ s2 e2 node2 hc2 hd2 hl2 hex2 => exact absurd rfl hc2
    | routeErr _ _ nx2 _ s2 e2 node2 rt2 hc2 hd2 hl2 hex2 hr2 hrt2 => exact absurd rfl hc2
    | routeStep _ _ nx2 _ s2 node2 rt2 _ hc2 hd2 hl2 hex2 hr2 hrt2 hnext2 => exact absurd rfl hc2
    | edgeStep _ _ _ s2 node2 _ hc2 hd2 hl2 hex2 hr2 hnext2 => exact absurd rfl hc2
  | cancelled i c s hc hdone =>
    cases h2 with
    | halt => exact absurd rfl hc
    | cancelled _ _ _ hc2 hd2 => rfl
    | missing _ _ _ hc2 hd2 hl2 => rw [hdone] at hd2; cases hd2
    | execErr _ _ _ s2 e2 node2 hc2 hd2 hl2 hex2 => rw [hdone] at hd2; cases hd2
    | routeErr _ _ nx2 _ s2 e2 node2 rt2 hc2 hd2 hl2 hex2 hr2 hrt2 => rw [hdone] at hd2; cases hd2
    | routeStep _ _ nx2 _ s2 node2 rt2 _ hc2 hd2 hl2 hex2 hr2 hrt2 hnext2 =>
      rw [hdone] at hd2; cases hd2
    | edgeStep _ _ _ s2 node2 _ hc2 hd2 hl2 hex2 hr2 hnext2 => rw [hdone] at hd2; cases hd2
  | missing i c s hc hdone hlook =>
    cases h2 with
    | halt => exact absurd rfl hc
    | cancelled _ _ _ hc2 hd2 => rw [hdone] at hd2; cases hd2
    | missing _ _ _ hc2 hd2 hl2 => rfl
    | execErr _ _ _ s2 e2 node2 hc2 hd2 hl2 hex2 => rw [hlook] at hl2; cases hl2
    | routeErr _ _ nx2 _ s2 e2 node2 rt2 hc2 hd2 hl2 hex2 hr2 hrt2 => rw [hlook] at hl2; cases hl2
    | routeStep _ _ nx2 _ s2 node2 rt2 _ hc2 hd2 hl2 hex2 hr2 hrt2 hnext2 =>
      rw [hlook] at hl2; cases hl2
    | edgeStep _ _ _ s2 node2 _ hc2 hd2 hl2 hex2 hr2 hnext2 => rw [hlook] at hl2; cases hl2
  | execErr i c s s' e node hc hdone hlook hex =>
    cases h2 with
    | halt => exact absurd rfl hc
    | cancelled _ _ _ hc2 hd2 => rw [hdone] at hd2; cases hd2
    | missing _ _ _ hc2 hd2 hl2 => rw [hlook] at hl2; cases hl2
    | execErr _ _ _ s2 e2 node2 hc2 hd2 hl2 hex2 =>
      rw [hlook] at hl2
      injection hl2 with hnode2
      subst hnode2
      exact (hfun c node hlook).1 s _ _ hex hex2
    | routeErr _ _ nx2 _ s2 e2 node2 rt2 hc2 hd2 hl2 hex2 hr2 hrt2 =>
      rw [hlook] at hl2
      injection hl2 with hnode2
      subst hnode2
      have hcontra := (hfun c node hlook).1 s _ _ hex hex2
      injection hcontra with h1 h2
      cases h2
    | routeStep _ _ nx2 _ s2 node2 rt2 _ hc2 hd2 hl2 hex2 hr2 hrt2 hnext2 =>
      rw [hlook] at hl2
      injection hl2 with hnode2
      subst hnode2
      have hcontra := (hfun c node hlook).1 s _ _ hex hex2
      injection hcontra with h1 h2
      cases h2
    | edgeStep _ _ _ s2 node2 _ hc2 hd2 hl2 hex2 hr2 hnext2 =>
      rw [hlook] at hl2
      injection hl2 with hnode2
      subst hnode2
      have hcontra := (hfun c node hlook).1 s _ _ hex hex2
      injection hcontra with h1 h2
      cases h2
  | routeErr i c nx s s' e node rt hc hdone hlook hex hroute hrt =>
    cases h2 with
    | halt => exact absurd rfl hc
    | cancelled _ _ _ hc2 hd2 => rw [hdone] at hd2; cases hd2
    | missing _ _ _ hc2 hd2 hl2 => rw [hlook] at hl2; cases hl2
    | execErr _ _ _ s2 e2 node2 hc2 hd2 hl2 hex2 =>
      rw [hlook] at hl2
      injection hl2 with hnode2
      subst hnode2
      have hcontra := (hfun c node hlook).1 s _ _ hex hex2
      injection hcontra with h1 h2
      cases h2
    | routeErr _ _ nx2 _ s2 e2 node2 rt2 hc2 hd2 hl2 hex2 hr2 hrt2 =>
      rw [hlook] at hl2
      injection hl2 with hnode2
      subst hnode2
      have hs := (hfun c node hlook).1 s _ _ hex hex2
      injection hs with hs1 hs2
      subst hs1
      rw [hroute] at hr2
      injection hr2 with hrteq
      subst hrteq
      have hro := (hfun c node hlook).2 rt hroute s' _ _ hrt hrt2
      injection hro with hnx he
      rw [he]
    | routeStep _ _ nx2 _ s2 node2 rt2 _ hc2 hd2 hl2 hex2 hr2 hrt2 hnext2 =>
      rw [hlook] at hl2
      injection hl2 with hnode2
      subst hnode2
      have hs := (hfun c node hlook).1 s _ _ hex hex2
      injection hs with hs1 hs2
      subst hs1
      rw [hroute] at hr2
      injection hr2 with hrteq
      subst hrteq
      have hro := (hfun c node hlook).2 rt hroute s' _ _ hrt hrt2
      injection hro with hnx he
      cases he
    | edgeStep _ _ _ s2 node2 _ hc2 hd2 hl2 hex2 hr2 hnext2 =>
      rw [hlook] at hl2
      injection hl2 with hnode2
      subst hnode2
      rw [hroute] at hr2
      cases hr2
  | routeStep i c nx s s' node rt out hc hdone hlook hex hroute hrt hnext ih =>
    cases h2 with
    | halt => exact absurd rfl hc
    | cancelled _ _ _ hc2 hd2 => rw [hdone] at hd2; cases hd2
    | missing _ _ _ hc2 hd2 hl2 => rw [hlook] at hl2; cases hl2
    | execErr _ _ _ s2 e2 node2 hc2 hd2 hl2 hex2 =>
      rw [hlook] at hl2
      injection hl2 with hnode2
      subst hnode2
      have hcontra := (hfun c node hlook).1 s _ _ hex hex2
      injection hcontra with h1 h2
      cases h2
    | routeErr _ _ nx2 _ s2 e2 node2 rt2 hc2 hd2 hl2 hex2 hr2 hrt2 =>
      rw [hlook] at hl2
      injection hl2 with hnode2
      subst hnode2
      have hs := (hfun c node hlook).1 s _ _ hex hex2
      injection hs with hs1 hs2
      subst hs1
      rw [hroute] at hr2
      injection hr2 with hrteq
      subst hrteq
      have hro := (hfun c node hlook).2 rt hroute s' _ _ hrt hrt2
      injection hro with hnx he
      cases he
    | routeStep _ _ nx2 _ s2 node2 rt2 _ hc2 hd2 hl2 hex2 hr2 hrt2 hnext2 =>
      rw [hlook] at hl2
      injection hl2 with hnode2
      subst hnode2
      have hs := (hfun c node hlook).1 s _ _ hex hex2
      injection hs with hs1 hs2
      subst hs1
      rw [hroute] at hr2
      injection hr2 with hrteq
      subst hrteq
      have hro := (hfun c node hlook).2 rt hroute s' _ _ hrt hrt2
      injection hro with hnx he
      subst hnx
      exact ih _ hnext2
    | edgeStep _ _ _ s2 node2 _ hc2 hd2 hl2 hex2 hr2 hnext2 =>
      rw [hlook] at hl2
      injection hl2 with hnode2
      subst hnode2
      rw [hroute] at hr2
      cases hr2
  | edgeStep i c s s' node out hc hdone hlook hex hroute hnext ih =>
    cases h2 with
    | halt => exact absurd rfl hc
    | cancelled _ _ _ hc2 hd2 => rw [hdone] at hd2; cases hd2
    | missing _ _ _ hc2 hd2 hl2 => rw [hlook] at hl2; cases hl2
    | execErr _ _ _ s2 e2 node2 hc2 hd2 hl2 hex2 =>
      rw [hlook] at hl2
      injection hl2 with hnode2
      subst hnode2
      have hcontra := (hfun c node hlook).1 s _ _ hex hex2
      injection hcontra with h1 h2
      cases h2
    | routeErr _ _ nx2 _ s2 e2 node2 rt2 hc2 hd2 hl2 hex2 hr2 hrt2 =>
      rw [hlook] at hl2
      injection hl2 with hnode2
      subst hnode2
      rw [hroute] at hr2
      cases hr2
    | routeStep _ _ nx2 _ s2 node2 rt2 _ hc2 hd2 hl2 hex2 hr2 hrt2 hnext2 =>
      rw [hlook] at hl2
      injection hl2 with hnode2
      subst hnode2
      rw [hroute] at hr2
      cases hr2
    | edgeStep _ _ _ s2 node2 _ hc2 hd2 hl2 hex2 hr2 hnext2 =>
      rw [hlook] at hl2
      injection hl2 with hnode2
      subst hnode2
      have hs := (hfun c node hlook).1 s _ _ hex hex2
      injection hs with hs1 hs2
      subst hs1
      exact ih _ hnext2

theorem toRel_functional {S ε : Type} (n : NodeImpl S ε) : n.toRel.Functional := by
  constructor
  · intro s o1 o2 h1 h2
    simp only [NodeImpl.toRel] at h1 h2
    rw [h1, h2]
  · intro rt hrt s o1 o2 h1 h2
    cases hr0 : n.route with
    | none => simp [NodeImpl.toRel, hr0] at hrt
    | some rt0 =>
      simp only [NodeImpl.toRel, hr0, Option.map_some] at hrt
      injection hrt with hrteq
      subst hrteq
      rw [h1, h2]

theorem toRel_hfun {S ε : Type} (g : Graph S ε) :
    ∀ name node, List.lookup name g.toRel.nodes = some node → node.Functional := by
  intro name node h
  rw [show g.toRel.nodes = g.nodes.map (fun p => (p.1, p.2.toRel)) from rfl,
    lookup_map_snd] at h
  cases hl : List.lookup name g.nodes with
  | none => rw [hl] at h; cases h
  | some n0 =>
    rw [hl] at h
    injection h with heq
    rw [← heq]
    exact toRel_functional n0

/-- C1: for every graph whose nodes form a single linear chain of
non-router, non-failing nodes connected by default edges, with the
entrypoint at the head of the chain and a context that is never done,
`Run` invokes each node's `Execute` exactly once, in edge order, and
returns the state produced by the last node with a nil error. -/
theorem claim1_linear_chain_run {S ε : Type} (g : Graph S ε) (ctx : Ctx ε)
    (n : String) (f : S → S) (chain : List (String × (S → S)))
    (hchain : isLinearChain g ((n, f) :: chain))
    (hentry : g.entrypoint = n)
    (hctx : ∀ k, ctx.doneAt k = false) (s : S) :
    g.Run ctx s (chain.length + 1) =
      some (((n, f) :: chain).map (fun p => Ev.exec p.1),
        applyChain ((n, f) :: chain) s, none) := by
  rw [Graph.Run, hentry]
  exact runLoop_chain g ctx hctx chain n f hchain 0 s

/-- Witness for C1: the spec's concrete scenario — nodes `A` (appends
"a") and `B` (appends "b"), edge `A -> B`, entrypoint `A`, initial
state `""`; `Run` executes `A` then `B` and returns `"ab"` with nil
error. -/
theorem claim1_linear_chain_run_witness :
    gAB.Run ctxLive "" 2 = some ([Ev.exec "A", Ev.exec "B"], "ab", none) := by
  have h := claim1_linear_chain_run gAB ctxLive "A" (fun s => s ++ "a")
    [("B", fun s => s ++ "b")]
    (by
      refine ⟨by decide, rfl, rfl, by decide, rfl, rfl, trivial⟩)
    rfl (fun k => rfl) ""
  simpa [applyChain] using h

/-- C2: whenever a node implementing the `Router` capability finishes
`Execute` successfully and its `Route` returns a name without error,
the run continues at exactly that name — whatever the default edge map
is, the default edges are never consulted (the conclusion holds
uniformly for every edge map `E`). -/
theorem claim2_router_precedence {S ε : Type} (g : Graph S ε) (ctx : Ctx ε)
    (fuel i : Nat) (c nx : String) (s s' : S) (node : NodeImpl S ε)
    (rt : S → String × Option ε)
    (hc : c ≠ "") (hdone : ctx.doneAt i = false)
    (hnode : List.lookup c g.nodes = some node)
    (hexec : node.execute s = (s', none))
    (hroute : node.route = some rt)
    (hrt : rt s' = (nx, none)) :
    ∀ E : List (String × List String),
      runLoop { g with edges := E } ctx (fuel + 1) i c s =
        (runLoop { g with edges := E } ctx fuel (i + 1) nx s').map
          (fun r => (Ev.exec c :: Ev.route c :: r.1, r.2)) := by
  intro E
  exact runLoop_routeStep { g with edges := E } ctx fuel i c nx s s' node rt
    hc hdone hnode hexec hroute hrt

/-- Witness for C2: the router `R` of `gR` routes to `""` and ends the
run even though a default edge `R -> X` is registered; `X` never
executes. -/
theorem claim2_router_precedence_witness :
    gR.Run ctxLive "s0" 1 = some ([Ev.exec "R", Ev.route "R"], "s0", none) := by
  have h := claim2_router_precedence gR ctxLive 0 0 "R" "" "s0" "s0"
    (routerNode "") (fun _ => ("", none)) (by decide) rfl rfl rfl rfl rfl
    gR.edges
  simpa [Graph.Run, runLoop_halt] using h

/-- C3: if the `Execute` of the node dispatched at some iteration
returns an error, no further `Execute` or `Route` is invoked and `Run`
returns that exact error with the state that `Execute` returned;
likewise a `Route` error stops the run at once, returning that exact
error with the state of the preceding `Execute`. -/
theorem claim3_error_passthrough {S ε : Type} (g : Graph S ε) (ctx : Ctx ε)
    (fuel i : Nat) (c : String) (s : S) (node : NodeImpl S ε)
    (hc : c ≠ "") (hdone : ctx.doneAt i = false)
    (hnode : List.lookup c g.nodes = some node) :
    (∀ (s' : S) (e : ε), node.execute s = (s', some e) →
      runLoop g ctx (fuel + 1) i c s = some ([Ev.exec c], s', some e)) ∧
    (∀ (s' : S) (rt : S → String × Option ε) (nx : String) (e : ε),
      node.execute s = (s', none) → node.route = some rt → rt s' = (nx, some e) →
      runLoop g ctx (fuel + 1) i c s = some ([Ev.exec c, Ev.route c], s', some e)) :=
  ⟨fun s' e hexec => runLoop_execErr g ctx fuel i c s s' e node hc hdone hnode hexec,
   fun s' rt nx e hexec hroute hrt =>
     runLoop_routeErr g ctx fuel i c nx s s' e node rt hc hdone hnode hexec hroute hrt⟩

/-- Witness for C3: `gFail`'s entrypoint `F` fails with "boom"; the
run stops after that single `Execute`, surfacing exactly "boom" and
the state `F` returned, with the default edge `F -> G` never
followed. -/
theorem claim3_error_passthrough_witness :
    gFail.Run ctxLive "x" 3 = some ([Ev.exec "F"], "x", some "boom") := by
  have h := (claim3_error_passthrough gFail ctxLive 2 0 "F" "x" failNode
    (by decide) rfl rfl).1 "x" "boom" rfl
  simpa [Graph.Run] using h

/-- C4 counterexample: the claim fails as stated on a graph whose
entrypoint is empty (never set): with a context already done, `Run`
returns the initial state with a nil error, not the context's
cancellation error. -/
theorem claim4_counterexample :
    (New "empty" : Graph String String).Run ctxDone "init" 5 = some ([], "init", none) ∧
    (some ([], "init", none) : Option (List Ev × String × Option String)) ≠
      some ([], "init", some ctxDone.ctxErr) := by
  constructor
  · decide
  · decide

/-- C4 (amended): provided the entrypoint is non-empty, a context that
is done before the first dispatch makes `Run` return the initial state
with the context's cancellation error and no node is invoked; and more
generally, at every iteration with a non-empty current node, a done
context stops the run the same way before dispatching. -/
theorem claim4_cancellation {S ε : Type} (g : Graph S ε) (ctx : Ctx ε)
    (fuel : Nat) (s : S) :
    (g.entrypoint ≠ "" → ctx.doneAt 0 = true →
      g.Run ctx s (fuel + 1) = some ([], s, some ctx.ctxErr)) ∧
    (∀ (i : Nat) (c : String), c ≠ "" → ctx.doneAt i = true →
      runLoop g ctx (fuel + 1) i c s = some ([], s, some ctx.ctxErr)) :=
  ⟨fun he hd => runLoop_cancelled g ctx fuel 0 g.entrypoint s he hd,
   fun i c hc hd => runLoop_cancelled g ctx fuel i c s hc hd⟩

/-- Witness for C4 (amended): `gAB` under an already-done context
returns the untouched initial state with the cancellation error and an
empty trace. -/
theorem claim4_cancellation_witness :
    gAB.Run ctxDone "z" 4 = some ([], "z", some "context canceled") :=
  (claim4_cancellation gAB ctxDone 3 "z").1 (by decide) rfl

/-- C5: when the current node name (the entrypoint included) is absent
from the registry and the context is not done, the loop terminates and
`Run` returns the state accumulated so far with a nil error. -/
theorem claim5_missing_node {S ε : Type} (g : Graph S ε) (ctx : Ctx ε)
    (fuel : Nat) (s : S) :
    (∀ (i : Nat) (c : String), c ≠ "" → ctx.doneAt i = false →
      List.lookup c g.nodes = none →
      runLoop g ctx (fuel + 1) i c s = some ([], s, none)) ∧
    (ctx.doneAt 0 = false → List.lookup g.entrypoint g.nodes = none →
      g.Run ctx s (fuel + 1) = some ([], s, none)) := by
  constructor
  · intro i c hc hd hn
    exact runLoop_missing g ctx fuel i c s hc hd hn
  · intro hd hn
    rw [Graph.Run]
    by_cases hc : g.entrypoint = ""
    · rw [hc, runLoop_halt]
    · exact runLoop_missing g ctx fuel 0 g.entrypoint s hc hd hn

/-- Witness for C5: `gDangling`'s entrypoint `Z` is unregistered;
`Run` returns the initial state unchanged, no error, nothing
executed. -/
theorem claim5_missing_node_witness :
    gDangling.Run ctxLive "keep" 7 = some ([], "keep", none) :=
  (claim5_missing_node gDangling ctxLive 6 "keep").2 rfl rfl

/-- C6: after a non-router node's `Execute` succeeds, the run advances
to the first element of the node's default edge list — the first-added
edge, since `AddEdge` appends to the end of the per-source list — and
to `""` (ending the run) when the list is empty; the
`headD ""` in the conclusion is exactly that selection. -/
theorem claim6_default_edge {S ε : Type} (g : Graph S ε) (ctx : Ctx ε)
    (fuel i : Nat) (c : String) (s s' : S) (node : NodeImpl S ε)
    (hc : c ≠ "") (hdone : ctx.doneAt i = false)
    (hnode : List.lookup c g.nodes = some node)
    (hexec : node.execute s = (s', none))
    (hroute : node.route = none) :
    runLoop g ctx (fuel + 1) i c s =
      (runLoop g ctx fuel (i + 1) (((List.lookup c g.edges).getD []).headD "") s').map
        (fun r => (Ev.exec c :: r.1, r.2)) ∧
    (∀ (g' : Graph S ε) (a b : String),
      List.lookup a (g'.AddEdge a b).edges =
        some ((List.lookup a g'.edges).getD [] ++ [b])) :=
  ⟨runLoop_edgeStep g ctx fuel i c s s' node hc hdone hnode hexec hroute,
   fun g' a b => lookup_mapInsert_self a ((List.lookup a g'.edges).getD [] ++ [b]) g'.edges⟩

/-- Witness for C6: in `gAB`, after `A` executes the run advances to
`B` (the first-added edge of `A`), and adding a later edge `A -> C`
appends it after `B`. -/
theorem claim6_default_edge_witness :
    (runLoop gAB ctxLive 2 0 "A" "" =
      (runLoop gAB ctxLive 1 1 "B" "a").map (fun r => (Ev.exec "A" :: r.1, r.2))) ∧
    List.lookup "A" (gAB.AddEdge "A" "C").edges = some ["B", "C"] := by
  have h := claim6_default_edge gAB ctxLive 1 0 "A" "" "a" (appendNode "a")
    (by decide) rfl rfl rfl rfl
  exact ⟨by simpa using h.1, by simpa using h.2 gAB "A" "C"⟩

/-- C7: `Run` performs no side effect on the `Graph` receiver: the
receiver-threading variant returns the graph unchanged and computes the
same result as `Run`; the executor keeps no state between calls. -/
theorem claim7_no_receiver_mutation {S ε : Type} (g : Graph S ε) (ctx : Ctx ε)
    (s : S) (fuel : Nat) :
    (g.RunMut ctx s fuel).1 = g ∧ (g.RunMut ctx s fuel).2 = g.Run ctx s fuel := by
  rw [Graph.RunMut, Graph.Run, runLoopMut_eq]
  exact ⟨rfl, rfl⟩

/-- C8: over the relational embedding, if every registered node's
`Execute` and `Route` relations are functional (deterministic nodes),
then any two terminating runs from the entrypoint on equal initial
states produce the same final state and error: the executor itself
introduces no nondeterminism. -/
theorem claim8_run_deterministic {S ε : Type} (g : GraphRel S ε) (ctx : Ctx ε)
    (hfun : ∀ name node, List.lookup name g.nodes = some node → node.Functional)
    (s1 s2 : S) (hs : s1 = s2) (o1 o2 : S × Option ε)
    (h1 : RunRel g ctx 0 g.entrypoint s1 o1)
    (h2 : RunRel g ctx 0 g.entrypoint s2 o2) : o1 = o2 := by
  subst hs
  exact RunRel_det g ctx hfun 0 g.entrypoint s1 o1 o2 h1 h2

/-- Witness for C8: two runs of the relational image of `gAB` from
state `""` both reach `("ab", nil)`. -/
theorem claim8_run_deterministic_witness :
    (("ab", none) : String × Option String) = ("ab", none) :=
  claim8_run_deterministic gAB.toRel ctxLive (toRel_hfun gAB) "" "" rfl
    ("ab", none) ("ab", none)
    (runLoop_toRel gAB ctxLive 2 0 "A" "" [Ev.exec "A", Ev.exec "B"] ("ab", none)
      (by decide))
    (runLoop_toRel gAB ctxLive 2 0 "A" "" [Ev.exec "A", Ev.exec "B"] ("ab", none)
      (by decide))

/-- C9: re-adding a node under an existing name replaces the earlier
binding: the doubly-updated graph is the graph with just the second
binding, the list of registered names is unchanged, lookup yields the
most recent node, and every subsequent `Run` behaves as with the most
recent node. -/
theorem claim9_addNode_replaces {S ε : Type} (g : Graph S ε) (name : String)
    (n1 n2 : NodeImpl S ε) :
    (g.AddNode name n1).AddNode name n2 = g.AddNode name n2 ∧
    ((g.AddNode name n1).AddNode name n2).nodes.map Prod.fst =
      (g.AddNode name n1).nodes.map Prod.fst ∧
    List.lookup name ((g.AddNode name n1).AddNode name n2).nodes = some n2 ∧
    ∀ (ctx : Ctx ε) (s : S) (fuel : Nat),
      ((g.AddNode name n1).AddNode name n2).Run ctx s fuel =
        (g.AddNode name n2).Run ctx s fuel := by
  have h1 : (g.AddNode name n1).AddNode name n2 = g.AddNode name n2 := by
    show ({ g with nodes := mapInsert name n2 (mapInsert name n1 g.nodes) } : Graph S ε) =
      { g with nodes := mapInsert name n2 g.nodes }
    rw [mapInsert_mapInsert_same]
  refine ⟨h1, ?_, ?_, ?_⟩
  · show (mapInsert name n2 (mapInsert name n1 g.nodes)).map Prod.fst =
      (mapInsert name n1 g.nodes).map Prod.fst
    rw [mapInsert_mapInsert_same]
    exact (keys_mapInsert_indep name n2 n1 g.nodes)
  · rw [h1]
    exact lookup_mapInsert_self name n2 g.nodes
  · intro ctx s fuel
    rw [h1]

/-- C10: `Run` is not guaranteed to terminate: on `gLoop` (a router
always routing to itself) and on `gCycle` (two non-router nodes whose
default edges form a cycle), under a context that is never done, the
loop completes for no amount of fuel — the executor bounds the number
of iterations by nothing. -/
theorem claim10_nontermination :
    ∀ (fuel i : Nat) (s : String),
      runLoop gLoop ctxLive fuel i "R" s = none ∧
      gLoop.Run ctxLive s fuel = none ∧
      runLoop gCycle ctxLive fuel i "A" s = none ∧
      gCycle.Run ctxLive s fuel = none := by
  have hloop : ∀ (fuel i : Nat) (s : String),
      runLoop gLoop ctxLive fuel i "R" s = none := by
    intro fuel
    induction fuel with
    | zero => intro i s; simp [runLoop]
    | succ n ih =>
      intro i s
      rw [runLoop_routeStep gLoop ctxLive n i "R" "R" s s loopNode
        (fun _ => ("R", none)) (by decide) rfl rfl rfl rfl rfl]
      rw [ih (i + 1) s]
      rfl
  have hcycle : ∀ (fuel i : Nat) (s : String),
      runLoop gCycle ctxLive fuel i "A" s = none ∧
      runLoop gCycle ctxLive fuel i "B" s = none := by
    intro fuel
    induction fuel with
    | zero => intro i s; exact ⟨by simp [runLoop], by simp [runLoop]⟩
    | succ n ih =>
      intro i s
      constructor
      · rw [runLoop_edgeStep gCycle ctxLive n i "A" s (s ++ "a") (appendNode "a")
          (by decide) rfl rfl rfl rfl]
        have : ((List.lookup "A" gCycle.edges).getD []).headD "" = "B" := by decide
        rw [this, (ih (i + 1) (s ++ "a")).2]
        rfl
      · rw [runLoop_edgeStep gCycle ctxLive n i "B" s (s ++ "b") (appendNode "b")
          (by decide) rfl rfl rfl rfl]
        have : ((List.lookup "B" gCycle.edges).getD []).headD "" = "A" := by decide
        rw [this, (ih (i + 1) (s ++ "b")).1]
        rfl
  intro fuel i s
  exact ⟨hloop fuel i s, hloop fuel 0 s, (hcycle fuel i s).1, (hcycle fuel 0 s).1⟩

end Duragraph

